import Mathlib

/-!
Verification of the variant-traffic experimentation workflow of the
`aws-data-machine-learning-workshop` repository.

The embedded code comes from two notebooks:
* `Lab3-SageMaker-Shadow-Deployment/(Optional)task2_ab_testing_with_variant.ipynb`
  (accuracy evaluation of two production variants, traffic-weight updates,
  endpoint deletion);
* `Lab2-SageMaker-Experiments/notebook_mode/pytorch_experiment_notebook.ipynb`
  (the `train_model` optimizer selection).

Pure computations are translated directly from the notebook cells.  The
polling / control-plane behaviour lives in the repository's `utils` module and
in the external hosting service, both absent from the sources at hand; those
operations are modelled from the specification and each such definition says
so in its doc comment.  Real-valued arithmetic (Python float division,
prediction scores, traffic weights) is embedded as exact rational arithmetic.
-/

/-! ## Accuracy evaluation (Lab 3, cells computing `accuracy`)

The notebook computes, for each variant,
`accuracy = sum(preds == labels) / len(labels)`
where `preds` and `labels` are equal-length numeric arrays.  Python raises
`ZeroDivisionError` when `len(labels) = 0`; the spec instead names an
`EmptyBatchError` guard, so the error vocabulary below has a constructor for
each in order to state the comparison. -/

inductive EvalError
  | zeroDivision
  | emptyBatch
deriving DecidableEq

/-- `sum(preds == labels)`: the number of positions where prediction and
ground-truth label agree. -/
def countCorrect (preds labels : List ℕ) : ℕ :=
  ((preds.zip labels).filter fun p => p.1 == p.2).length

/-- `accuracy = sum(preds == labels) / len(labels)`, embedded fallibly: the
division raises `ZeroDivisionError` when the label column is empty. -/
def accuracy (preds labels : List ℕ) : Except EvalError ℚ :=
  if labels.length = 0 then Except.error EvalError.zeroDivision
  else Except.ok ((countCorrect preds labels : ℚ) / (labels.length : ℚ))

/-! ## Prediction dataframe construction (Lab 3, cells building `df`/`df2`)

Each inference response is a list of `(label, score)` candidates; the loop
keeps the rows attaining the maximal score (`tmp_df[tmp_df.score == max(...)]`)
and appends them.  The loop body reads `predictions[0]`, not the loop
variable. -/

/-- The rows of one parsed response whose score attains the maximum
(`tmp_df[tmp_df['score'] == max(tmp_df['score'])]`). -/
def argmaxRows (p : List (String × ℚ)) : List (String × ℚ) :=
  p.filter fun r => decide ((p.map Prod.snd).maximum = (r.2 : WithBot ℚ))

/-- The `df` / `df2` construction loop:
`for prediction in predictions: tmp_df = parse(predictions[0]); df = df.append(argmax rows)`.
Note the body parses `predictions[0]` on every iteration. -/
def buildPredDf (predictions : List (List (String × ℚ))) : List (String × ℚ) :=
  predictions.foldl (fun df _pred => df ++ argmaxRows (predictions.headD [])) []

/-- `n` copies of the block `c`, concatenated: the shape `buildPredDf`
actually produces. -/
def repeatAppend {β : Type} (c : List β) : ℕ → List β
  | 0 => []
  | n + 1 => c ++ repeatAppend c n

/-! ## Optimizer selection (Lab 2, `train_model`)

`if optimizer == "sgd": optimizer = torch.optim.SGD(...) else: optimizer =
torch.optim.Adam(...)` — a total branch, no error path for unrecognised
names.  The first experiment cell calls `train_model(..., optimizer="SGD")`. -/

inductive Optimizer
  | sgd
  | adam
deriving DecidableEq

/-- The optimizer branch of `train_model`. -/
def chooseOptimizer (optimizer : String) : Optimizer :=
  if optimizer = "sgd" then Optimizer.sgd else Optimizer.adam

/-- The literal argument passed at the first experiment's call site. -/
def callSiteOptimizerArg : String := "SGD"

/-! ## Label vocabularies (Lab 3, the `value_map` cells)

Cell `value_map = {'LABEL_0': 0, 'LABEL_1': 1, 'LABEL_2': 2}` rewrites the
label column of the roberta variant's dataframe; cell
`value_map = {'NEGATIVE': 0, 'POSITIVE': 1}` rewrites the distilbert
variant's.  `df.replace` maps values found in the dict and leaves the rest
unchanged. -/

/-- The literal `value_map` dict applied to Variant1's label column. -/
def value_map1 : String → Option ℕ := fun s =>
  if s = "LABEL_0" then some 0
  else if s = "LABEL_1" then some 1
  else if s = "LABEL_2" then some 2
  else none

/-- The literal `value_map` dict applied to Variant2's label column. -/
def value_map2 : String → Option ℕ := fun s =>
  if s = "NEGATIVE" then some 0
  else if s = "POSITIVE" then some 1
  else none

/-- `df.replace(dict)` on a label column: mapped values are replaced,
unmapped raw labels pass through unchanged. -/
def replaceLabels (m : String → Option ℕ) (ls : List String) : List (String ⊕ ℕ) :=
  ls.map fun s =>
    match m s with
    | some v => Sum.inr v
    | none => Sum.inl s

/-- `df = df.replace({'label': value_map})` for Variant1. -/
def variant1LabelColumn (ls : List String) : List (String ⊕ ℕ) :=
  replaceLabels value_map1 ls

/-- `df2 = df2.replace({'label': value_map})` for Variant2. -/
def variant2LabelColumn (ls : List String) : List (String ⊕ ℕ) :=
  replaceLabels value_map2 ls

/-! ## Endpoint and traffic model (Lab 3)

The notebook registers `Variant1` and `Variant2` with `initial_weight=1`
each (cell calling `sagemaker.production_variant`), creates the endpoint
from them, later requests the weight splits 75/25 and 1/0
(`update_endpoint_weights_and_capacities` cells), and finally deletes the
endpoint.  The validation and completion behaviour of these operations lives
in the repository's `utils` module and in the external control plane, which
are not among the sources; those parts are modelled from the
specification. -/

inductive EpState
  | creating
  | inService
  | updating
  | deleting
  | deleted
deriving DecidableEq

/-- A mapping from variant name to traffic weight, in declaration order. -/
abbrev WeightMap := List (String × ℚ)

structure Endpoint where
  variants : WeightMap
  state : EpState
deriving DecidableEq

inductive CtrlError
  | unknownVariant
  | updateRejected
deriving DecidableEq

inductive RolloutError
  | timeout
deriving DecidableEq

def variantNames (e : Endpoint) : List String :=
  e.variants.map Prod.fst

/-- `variant_name="Variant1"` in the first `production_variant` call. -/
def variant1Name : String := "Variant1"

/-- `variant_name="Variant2"` in the second `production_variant` call. -/
def variant2Name : String := "Variant2"

/-- The two registered production variants, `initial_weight=1` each. -/
def initialVariants : WeightMap := [(variant1Name, 1), (variant2Name, 1)]

/-- The endpoint built by `endpoint_from_production_variants`, once in
service. -/
def createdEndpoint : Endpoint :=
  { variants := initialVariants, state := EpState.inService }

/-- `DesiredWeightsAndCapacities` of the first update cell: 75 / 25. -/
def update7525 : WeightMap := [(variant1Name, 75), (variant2Name, 25)]

/-- `DesiredWeightsAndCapacities` of the second update cell: 1 / 0. -/
def update10 : WeightMap := [(variant1Name, 1), (variant2Name, 0)]

/-- Whether every key of a desired-weight mapping names a variant hosted on
the endpoint. -/
def validTargetB (e : Endpoint) (w : WeightMap) : Bool :=
  w.all fun p => (variantNames e).contains p.1

/-- Apply a desired-weight mapping to the hosted variants: a variant named
in the mapping gets its desired weight, the others keep theirs; variant
membership is unchanged. -/
def applyDesired (vs : WeightMap) (w : WeightMap) : WeightMap :=
  vs.map fun v =>
    match w.find? (fun p => p.1 == v.1) with
    | some p => (v.1, p.2)
    | none => v

/-- Modelled from the spec: `setWeights` (the
`update_endpoint_weights_and_capacities` call, whose key validation is
performed by the external control plane, not present in the sources).  Every
key must name a hosted variant, else the call fails with
`UnknownVariantError` and issues no remote update; on success it issues a
single atomic update request.  The second component is the list of remote
update requests issued. -/
def setWeights (e : Endpoint) (w : WeightMap) : Except CtrlError Endpoint × List WeightMap :=
  if validTargetB e w then
    (Except.ok { e with variants := applyDesired e.variants w }, [w])
  else
    (Except.error CtrlError.unknownVariant, [])

/-- Modelled from the spec: the polling loop of `shiftTraffic`
(`utils.endpoint_update_wait`, a repository module absent from the sources).
`obs t` is what `currentWeights` returns at poll `t`; the loop returns the
poll index at which the observed weights first equal the target, or times
out when the poll budget is exhausted. -/
def pollWeights (obs : ℕ → WeightMap) (target : WeightMap) : ℕ → ℕ → Except RolloutError ℕ
  | _, 0 => Except.error RolloutError.timeout
  | t, fuel + 1 =>
      if obs t = target then Except.ok t
      else pollWeights obs target (t + 1) fuel

/-- Modelled from the spec: `shiftTraffic` calls `setWeights`, then polls
`currentWeights` until it equals the target mapping exactly or the poll
budget `maxPolls` (i.e. `max_wait / poll_interval`) elapses, failing with
`RolloutTimeoutError` in the latter case. -/
def shiftTraffic (e : Endpoint) (target : WeightMap) (obs : ℕ → WeightMap)
    (maxPolls : ℕ) : Except (Sum CtrlError RolloutError) ℕ :=
  match (setWeights e target).1 with
  | Except.error c => Except.error (Sum.inl c)
  | Except.ok _ =>
      match pollWeights obs target 0 maxPolls with
      | Except.ok t => Except.ok t
      | Except.error _ => Except.error (Sum.inr RolloutError.timeout)

/-- Modelled from the spec: `progressiveRollout` applies each step's weight
split in order, 1-based step counting; a failing step stops the sequence and
surfaces the error with its index, leaving earlier steps applied. -/
def progressiveRolloutGo : Endpoint → List WeightMap → ℕ → Endpoint × Option (ℕ × CtrlError)
  | e, [], _ => (e, none)
  | e, s :: rest, k =>
      match (setWeights e s).1 with
      | Except.ok e2 => progressiveRolloutGo e2 rest (k + 1)
      | Except.error c => (e, some (k, c))

/-- Modelled from the spec: `progressiveRollout` over an ordered step
sequence, starting at step index 1. -/
def progressiveRollout (e : Endpoint) (steps : List WeightMap) :
    Endpoint × Option (ℕ × CtrlError) :=
  progressiveRolloutGo e steps 1

/-- The endpoint after the successful application of a list of weight
updates (a failing update leaves the endpoint unchanged). -/
def applySteps (e : Endpoint) (steps : List WeightMap) : Endpoint :=
  steps.foldl (fun ep s =>
    match (setWeights ep s).1 with
    | Except.ok e2 => e2
    | Except.error _ => ep) e

/-- Sum of the traffic weights hosted on an endpoint. -/
def sumWeights (e : Endpoint) : ℚ :=
  (e.variants.map Prod.snd).sum

/-- The endpoint states the notebook's workflow passes through: creation
with weights 1/1, then the 75/25 update, then the 1/0 update. -/
def workflowEndpoints : List Endpoint :=
  [createdEndpoint,
   applySteps createdEndpoint [update7525],
   applySteps createdEndpoint [update7525, update10]]

/-- The endpoint after both weight updates of the notebook. -/
def finalEndpoint : Endpoint :=
  applySteps createdEndpoint [update7525, update10]

/-- Modelled from the spec: weighted routing by the external service.  A
draw `r` with `0 ≤ r <` total weight selects the variant whose cumulative
weight interval contains `r`. -/
def route : WeightMap → ℚ → Option String
  | [], _ => none
  | (n, w) :: rest, r => if r < w then some n else route rest (r - w)

/-- Modelled from the spec: `delete` (`sm_session.delete_endpoint`); the
second component reports success.  Deleting an already-deleted endpoint is a
no-op, not an error. -/
def deleteEndpoint (e : Endpoint) : Endpoint × Bool :=
  if e.state = EpState.deleted then (e, true)
  else ({ e with state := EpState.deleted }, true)

/-- Weight observation stream for the concrete 75/25 shift: the update is
visible from poll 1 on. -/
def demoObs : ℕ → WeightMap := fun t =>
  if t = 0 then initialVariants else update7525

/-- First rollout step of the claim's example: the 25/75 split. -/
def step2575 : WeightMap := [(variant1Name, 25), (variant2Name, 75)]

/-- A rollout step naming a variant absent from the endpoint. -/
def badStep : WeightMap := [(variant1Name, 0), ("VariantX", 100)]

/-! ## Helper lemmas -/

theorem countCorrect_le (preds labels : List ℕ) :
    countCorrect preds labels ≤ labels.length := by
  have h1 : countCorrect preds labels ≤ (preds.zip labels).length :=
    List.length_filter_le _ _
  have h2 : (preds.zip labels).length ≤ labels.length := by
    rw [List.length_zip]
    exact min_le_right _ _
  exact le_trans h1 h2

theorem foldl_append_const {α β : Type} (c : List β) (l : List α) :
    ∀ acc : List β, l.foldl (fun df _ => df ++ c) acc = acc ++ repeatAppend c l.length := by
  induction l with
  | nil => intro acc; simp [repeatAppend]
  | cons x xs ih =>
      intro acc
      simp only [List.foldl_cons, List.length_cons, repeatAppend, ih,
        List.append_assoc]

theorem variantNames_applyDesired (vs w : WeightMap) :
    (applyDesired vs w).map Prod.fst = vs.map Prod.fst := by
  induction vs with
  | nil => rfl
  | cons v rest ih =>
      simp only [applyDesired, List.map_cons] at ih ⊢
      cases hf : w.find? (fun p => p.1 == v.1) with
      | none => simp [hf, ih]
      | some p => simp [hf, ih]

theorem setWeights_ok_names {e e2 : Endpoint} {w : WeightMap}
    (h : (setWeights e w).1 = Except.ok e2) :
    variantNames e2 = variantNames e := by
  unfold setWeights at h
  by_cases hv : validTargetB e w = true
  · simp only [hv, if_true] at h
    have he : ({ e with variants := applyDesired e.variants w } : Endpoint) = e2 := by
      simpa using h
    rw [← he]
    simpa [variantNames] using variantNames_applyDesired e.variants w
  · simp [hv] at h

theorem validTargetB_eq_of_names {e1 e2 : Endpoint}
    (h : variantNames e2 = variantNames e1) (w : WeightMap) :
    validTargetB e2 w = validTargetB e1 w := by
  unfold validTargetB
  rw [h]

theorem pollWeights_ok (obs : ℕ → WeightMap) (target : WeightMap) :
    ∀ (fuel t u : ℕ), pollWeights obs target t fuel = Except.ok u → obs u = target := by
  intro fuel
  induction fuel with
  | zero => intro t u h; simp [pollWeights] at h
  | succ n ih =>
      intro t u h
      by_cases he : obs t = target
      · simp only [pollWeights, he, if_true, Except.ok.injEq] at h
        rw [← h]
        exact he
      · simp only [pollWeights, he, if_false] at h
        exact ih (t + 1) u h

theorem pollWeights_timeout (obs : ℕ → WeightMap) (target : WeightMap) :
    ∀ (fuel t : ℕ), (∀ u, t ≤ u → u < t + fuel → obs u ≠ target) →
      pollWeights obs target t fuel = Except.error RolloutError.timeout := by
  intro fuel
  induction fuel with
  | zero => intro t _; rfl
  | succ n ih =>
      intro t h
      have h0 : obs t ≠ target := h t le_rfl (by omega)
      simp only [pollWeights, h0, if_false]
      exact ih (t + 1) fun u hu1 hu2 => h u (by omega) (by omega)

theorem progressiveRolloutGo_stops (bad : WeightMap) (post : List WeightMap) :
    ∀ (pre : List WeightMap) (e : Endpoint) (k : ℕ),
      (∀ s ∈ pre, validTargetB e s = true) → validTargetB e bad = false →
      progressiveRolloutGo e (pre ++ bad :: post) k
        = (applySteps e pre, some (pre.length + k, CtrlError.unknownVariant)) := by
  intro pre
  induction pre with
  | nil =>
      intro e k _ hbad
      simp [progressiveRolloutGo, setWeights, hbad, applySteps]
  | cons s rest ih =>
      intro e k hpre hbad
      have hs : validTargetB e s = true := hpre s (by simp)
      have hset : (setWeights e s).1
          = Except.ok { e with variants := applyDesired e.variants s } := by
        simp [setWeights, hs]
      have hnames :
          variantNames { e with variants := applyDesired e.variants s } = variantNames e :=
        setWeights_ok_names hset
      have hgo : progressiveRolloutGo e ((s :: rest) ++ bad :: post) k
          = progressiveRolloutGo { e with variants := applyDesired e.variants s }
              (rest ++ bad :: post) (k + 1) := by
        simp [progressiveRolloutGo, hset]
      rw [hgo, ih _ (k + 1)
        (fun s2 hs2 => by rw [validTargetB_eq_of_names hnames]; exact hpre s2 (by simp [hs2]))
        (by rw [validTargetB_eq_of_names hnames]; exact hbad)]
      have happ : applySteps e (s :: rest)
          = applySteps { e with variants := applyDesired e.variants s } rest := by
        simp [applySteps, hset]
      rw [← happ]
      simp only [List.length_cons, Prod.mk.injEq, Option.some.injEq, true_and]
      constructor
      · omega
      · trivial

theorem route_not_zero_weight (v : String) :
    ∀ (vs : WeightMap) (r : ℚ), 0 ≤ r →
      (∀ p ∈ vs, p.1 = v → p.2 = 0) → route vs r ≠ some v := by
  intro vs
  induction vs with
  | nil => intro r _ _ h; simp [route] at h
  | cons p rest ih =>
      obtain ⟨n, w⟩ := p
      intro r hr hz h
      by_cases hlt : r < w
      · rw [route, if_pos hlt] at h
        have hn : n = v := by simpa using h
        have hw : w = 0 := hz (n, w) (by simp) hn
        rw [hw] at hlt
        exact absurd hr (not_le.mpr hlt)
      · rw [route, if_neg hlt] at h
        exact ih (r - w) (sub_nonneg.mpr (not_lt.mp hlt))
          (fun q hq hqv => hz q (List.mem_cons_of_mem _ hq) hqv) h

/-! ## Claim theorems -/

/-- C1: for every non-empty batch, the variant evaluation returns accuracy
equal to exactly the number of correct predictions divided by the number of
samples, and that value lies in `[0, 1]`. -/
theorem accuracy_ratio_unit_interval (preds labels : List ℕ)
    (hne : labels ≠ []) (_hlen : preds.length = labels.length) :
    accuracy preds labels
      = Except.ok ((countCorrect preds labels : ℚ) / (labels.length : ℚ)) ∧
    0 ≤ (countCorrect preds labels : ℚ) / (labels.length : ℚ) ∧
    (countCorrect preds labels : ℚ) / (labels.length : ℚ) ≤ 1 := by
  have h0 : labels.length ≠ 0 := by
    simpa using List.length_pos.mpr hne |>.ne'
  have hq : (0 : ℚ) < (labels.length : ℚ) := by
    exact_mod_cast Nat.pos_of_ne_zero h0
  refine ⟨by simp [accuracy, h0], ?_, ?_⟩
  · exact div_nonneg (by positivity) (le_of_lt hq)
  · rw [div_le_one hq]
    exact_mod_cast countCorrect_le preds labels

/-- Witness for C1 at the concrete batch `preds = [0, 1, 2]`,
`labels = [0, 1, 1]` (two of three correct). -/
theorem accuracy_ratio_unit_interval_witness :
    accuracy [0, 1, 2] [0, 1, 1]
      = Except.ok ((countCorrect [0, 1, 2] [0, 1, 1] : ℚ)
          / (([0, 1, 1] : List ℕ).length : ℚ)) ∧
    0 ≤ (countCorrect [0, 1, 2] [0, 1, 1] : ℚ) / (([0, 1, 1] : List ℕ).length : ℚ) ∧
    (countCorrect [0, 1, 2] [0, 1, 1] : ℚ) / (([0, 1, 1] : List ℕ).length : ℚ) ≤ 1 :=
  accuracy_ratio_unit_interval [0, 1, 2] [0, 1, 1] (by decide) (by decide)

/-- C2 counterexample: on the empty batch the code reaches the division by
`len(labels) = 0` and fails with `ZeroDivisionError`; it does not raise the
`EmptyBatchError` the claim names. -/
theorem accuracy_empty_is_zero_division_not_emptyBatch :
    accuracy [] [] = Except.error EvalError.zeroDivision ∧
    accuracy [] [] ≠ Except.error EvalError.emptyBatch := by
  refine ⟨rfl, ?_⟩
  intro h
  simp [accuracy] at h

/-- C2 amended: on an empty batch the accuracy computation performs the
division by `len(samples) = 0` and fails with `ZeroDivisionError`; there is
no `EmptyBatchError` guard in the code. -/
theorem accuracy_empty_batch_zero_division (preds : List ℕ) :
    accuracy preds [] = Except.error EvalError.zeroDivision := rfl

/-- C9: every iteration of the dataframe-building loop parses
`predictions[0]` rather than the current element, so the result is the
first response's argmax rows repeated once per response: it depends only on
element 0 (and the length) of the prediction list. -/
theorem build_df_uses_only_first_prediction (predictions : List (List (String × ℚ))) :
    buildPredDf predictions
      = repeatAppend (argmaxRows (predictions.headD [])) predictions.length := by
  unfold buildPredDf
  rw [foldl_append_const]
  simp

/-- C10: `train_model` selects SGD exactly when its `optimizer` argument is
the string `"sgd"`; any other string (including the `"SGD"` passed at the
call site) silently selects Adam, with no error for unsupported names. -/
theorem train_model_optimizer_selection :
    chooseOptimizer "sgd" = Optimizer.sgd ∧
    (∀ s : String, s ≠ "sgd" → chooseOptimizer s = Optimizer.adam) ∧
    chooseOptimizer callSiteOptimizerArg = Optimizer.adam := by
  refine ⟨rfl, ?_, rfl⟩
  intro s hs
  simp [chooseOptimizer, hs]

/-- Witness for C10: the call site's literal `"SGD"` selects Adam, while
lowercase `"sgd"` selects SGD. -/
theorem train_model_optimizer_selection_witness :
    chooseOptimizer "SGD" = Optimizer.adam :=
  train_model_optimizer_selection.2.1 "SGD" (by decide)

/-- C3: after `setWeights` with the target mapping 75/25, `shiftTraffic`
returns normally only at a poll where the observed current weights equal the
target mapping exactly; if the target is never observed within the poll
budget it fails with `RolloutTimeoutError`. -/
theorem shiftTraffic_exact_match_or_timeout (e : Endpoint) (target : WeightMap)
    (obs : ℕ → WeightMap) (maxPolls : ℕ)
    (hvalid : validTargetB e target = true) :
    (∀ t, shiftTraffic e target obs maxPolls = Except.ok t → obs t = target) ∧
    ((∀ t, t < maxPolls → obs t ≠ target) →
      shiftTraffic e target obs maxPolls
        = Except.error (Sum.inr RolloutError.timeout)) := by
  have hset : (setWeights e target).1
      = Except.ok { e with variants := applyDesired e.variants target } := by
    simp [setWeights, hvalid]
  constructor
  · intro t h
    simp only [shiftTraffic, hset] at h
    cases hp : pollWeights obs target 0 maxPolls with
    | ok u =>
        rw [hp] at h
        simp only [Except.ok.injEq] at h
        rw [← h]
        exact pollWeights_ok obs target maxPolls 0 u hp
    | error err =>
        rw [hp] at h
        simp at h
  · intro hobs
    have ht : pollWeights obs target 0 maxPolls = Except.error RolloutError.timeout :=
      pollWeights_timeout obs target maxPolls 0 fun u _ hu2 => hobs u (by omega)
    simp only [shiftTraffic, hset, ht]

/-- Witness for C3: with observations that reach the 75/25 target at poll 1,
`shiftTraffic` returns at poll 1 and the weights observed there equal the
target. -/
theorem shiftTraffic_exact_match_or_timeout_witness :
    shiftTraffic createdEndpoint update7525 demoObs 3 = Except.ok 1 ∧
    demoObs 1 = update7525 := by
  have h := shiftTraffic_exact_match_or_timeout createdEndpoint update7525 demoObs 3
    (by decide)
  have hok : shiftTraffic createdEndpoint update7525 demoObs 3 = Except.ok 1 := by rfl
  exact ⟨hok, h.1 1 hok⟩

/-- C4: a weight mapping containing a variant id absent from the endpoint
makes `setWeights` fail with `UnknownVariantError`, and no remote update
request is issued. -/
theorem setWeights_unknown_variant_no_update (e : Endpoint) (w : WeightMap)
    (k : String) (hk : k ∈ w.map Prod.fst) (hnk : k ∉ variantNames e) :
    setWeights e w = (Except.error CtrlError.unknownVariant, []) := by
  have hv : validTargetB e w = false := by
    rw [Bool.eq_false_iff]
    intro hall
    obtain ⟨p, hp, hpk⟩ := List.mem_map.mp hk
    have hc := List.all_eq_true.mp hall p hp
    rw [hpk] at hc
    exact hnk (by simpa using hc)
  simp [setWeights, hv]

/-- Witness for C4: updating the two-variant endpoint with a mapping naming
`VariantX` fails with `UnknownVariantError` and issues no request. -/
theorem setWeights_unknown_variant_no_update_witness :
    setWeights createdEndpoint [("VariantX", 50)]
      = (Except.error CtrlError.unknownVariant, []) :=
  setWeights_unknown_variant_no_update createdEndpoint [("VariantX", 50)] "VariantX"
    (by decide) (by decide)

/-- C5: if the step at (1-based) index `k` of a rollout sequence fails, the
weight changes applied by the earlier steps remain in effect, no later step
is attempted, and the surfaced error carries the failing step index `k`. -/
theorem progressiveRollout_stops_at_failure (e : Endpoint) (pre : List WeightMap)
    (bad : WeightMap) (post : List WeightMap)
    (hpre : ∀ s ∈ pre, validTargetB e s = true)
    (hbad : validTargetB e bad = false) :
    progressiveRollout e (pre ++ bad :: post)
      = (applySteps e pre, some (pre.length + 1, CtrlError.unknownVariant)) := by
  unfold progressiveRollout
  exact progressiveRolloutGo_stops bad post pre e 1 hpre hbad

/-- Witness for C5: rolling out the 25/75 step and then a step naming an
unknown variant leaves the 25/75 weights applied and reports index 2. -/
theorem progressiveRollout_stops_at_failure_witness :
    progressiveRollout createdEndpoint [step2575, badStep]
      = ({ variants := [(variant1Name, 25), (variant2Name, 75)],
            state := EpState.inService },
          some (2, CtrlError.unknownVariant)) := by
  have h := progressiveRollout_stops_at_failure createdEndpoint [step2575] badStep []
    (by decide) (by decide)
  exact h

/-- C6: every state the workflow's registration and weight updates produce
keeps the sum of variant weights strictly positive while in service; after
the 1/0 update the zero-weight variant is still hosted on the endpoint but
weighted routing never selects it. -/
theorem workflow_weight_sum_pos (r : ℚ) (hr : 0 ≤ r) :
    (∀ e ∈ workflowEndpoints, e.state = EpState.inService → 0 < sumWeights e) ∧
    (variant2Name, 0) ∈ finalEndpoint.variants ∧
    route finalEndpoint.variants r ≠ some variant2Name := by
  have h1 : workflowEndpoints =
      [createdEndpoint,
       { variants := [(variant1Name, 75), (variant2Name, 25)],
          state := EpState.inService },
       { variants := [(variant1Name, 1), (variant2Name, 0)],
          state := EpState.inService }] := rfl
  have h2 : finalEndpoint.variants = [(variant1Name, 1), (variant2Name, 0)] := rfl
  refine ⟨?_, ?_, ?_⟩
  · intro e he _
    rw [h1] at he
    simp only [List.mem_cons, List.not_mem_nil, or_false] at he
    rcases he with he | he | he <;> subst he <;>
      norm_num [sumWeights, createdEndpoint, initialVariants]
  · rw [h2]
    simp
  · refine route_not_zero_weight variant2Name finalEndpoint.variants r hr ?_
    simp only [h2, List.mem_cons, List.not_mem_nil, or_false]
    intro p hp hpv
    rcases hp with hp | hp <;> subst hp
    · exact absurd hpv (by decide)
    · rfl

/-- Witness for C6: the final endpoint's weight sum is positive and a draw
of 1/2 does not route to the zero-weight `Variant2`. -/
theorem workflow_weight_sum_pos_witness :
    0 < sumWeights finalEndpoint ∧
    route finalEndpoint.variants (1 / 2) ≠ some variant2Name := by
  have h := workflow_weight_sum_pos (1 / 2) (by norm_num)
  refine ⟨h.1 finalEndpoint ?_ rfl, h.2.2⟩
  simp [workflowEndpoints, finalEndpoint]

/-- C7: `delete` is idempotent: the first call succeeds and leaves the
endpoint deleted, and a second call on the already-deleted endpoint is a
no-op that also succeeds. -/
theorem delete_idempotent (e : Endpoint) :
    (deleteEndpoint e).2 = true ∧
    (deleteEndpoint e).1.state = EpState.deleted ∧
    deleteEndpoint (deleteEndpoint e).1 = ((deleteEndpoint e).1, true) := by
  by_cases h : e.state = EpState.deleted <;> simp [deleteEndpoint, h]

/-- C8 counterexample: the label mapping is not supplied by the caller; the
evaluation cells hard-code a different vocabulary per model, so the same raw
label `"NEGATIVE"` passes through Variant1's column untouched while it is
mapped to `0` in Variant2's column. -/
theorem label_vocab_differs_per_variant :
    variant1LabelColumn ["NEGATIVE"] = [Sum.inl "NEGATIVE"] ∧
    variant2LabelColumn ["NEGATIVE"] = [Sum.inr 0] ∧
    variant1LabelColumn ["NEGATIVE"] ≠ variant2LabelColumn ["NEGATIVE"] := by
  decide

/-- C8 amended: each variant's evaluation maps raw labels through a
hard-coded per-model `value_map` dict — `LABEL_0/1/2` for Variant1 and
`NEGATIVE`/`POSITIVE` for Variant2 — applied with replace semantics that
leave labels outside the dict unchanged; no caller-supplied mapping function
exists. -/
theorem label_vocab_hardcoded (s : String)
    (h0 : s ≠ "LABEL_0") (h1 : s ≠ "LABEL_1") (h2 : s ≠ "LABEL_2") :
    variant1LabelColumn ["LABEL_0", "LABEL_1", "LABEL_2"]
      = [Sum.inr 0, Sum.inr 1, Sum.inr 2] ∧
    variant1LabelColumn [s] = [Sum.inl s] ∧
    variant2LabelColumn ["NEGATIVE", "POSITIVE"] = [Sum.inr 0, Sum.inr 1] := by
  refine ⟨by decide, ?_, by decide⟩
  simp [variant1LabelColumn, replaceLabels, value_map1, h0, h1, h2]

/-- Witness for C8's amended claim at the raw label `"NEGATIVE"`, which lies
outside Variant1's hard-coded vocabulary. -/
theorem label_vocab_hardcoded_witness :
    variant1LabelColumn ["LABEL_0", "LABEL_1", "LABEL_2"]
      = [Sum.inr 0, Sum.inr 1, Sum.inr 2] ∧
    variant1LabelColumn ["NEGATIVE"] = [Sum.inl "NEGATIVE"] ∧
    variant2LabelColumn ["NEGATIVE", "POSITIVE"] = [Sum.inr 0, Sum.inr 1] :=
  label_vocab_hardcoded "NEGATIVE" (by decide) (by decide) (by decide)
